import Mathlib

/-!
Shallow embedding of the krust_lang bytecode compiler (src/compiler.rs) and
its diagnostics subsystem (src/log.rs), together with theorems checking the
natural-language specification against this embedding.

Machine integers are modelled as Nat with explicit reduction modulo powers of
two where the Rust code truncates; functions that can panic in Rust return
Option, with none standing for the panic.
-/

set_option autoImplicit false

namespace Krust

/-- Host machine word size in bits: the value of usize::BITS on the 64-bit
host that compiles the program. -/
def usizeBits : Nat := 64

/-- Modelled from the spec: the closed enumeration Type = {Int, Bool, Unit}
produced by the parser/type-checker (parser.rs is not under src/). Named Ty
because Type is a Lean keyword. -/
inductive Ty where
  | int
  | bool
  | unit
deriving DecidableEq, Repr

/-- Modelled from the spec: the token variants of the lexer (lexer.rs is not
under src/) that the compiler matches on, plus a representative variant
(leftParen) for the wildcard panic arms. The int-literal payload is the
language's fixed 32-bit integer (cf. the 0x8000_0000 bound in log.rs line
124); it is modelled as a Nat whose low 32 bits are the value. -/
inductive TokenType where
  | plus
  | minus
  | star
  | slash
  | percent
  | less
  | lessEqual
  | greater
  | greaterEqual
  | ampersand
  | caret
  | bar
  | leftShift
  | rightShift
  | equality
  | inequality
  | tilde
  | exclamationMark
  | intLiteral (value : Nat)
  | literalTrue
  | literalFalse
  | leftParen
deriving DecidableEq, Repr

/-- Modelled from the spec: a lexical token with its 1-based source line and
column (both usize on the host, modelled as Nat). -/
structure Token where
  token_type : TokenType
  line : Nat
  col : Nat
deriving DecidableEq, Repr

/-- Modelled from the spec: the typed AST produced by the parser
(parser.rs is not under src/): Literal, Unary, Binary, Grouping, Statement,
ExpressionList and Unit, each value-bearing variant caching its resolved
type as an Option (absent only when a parse error occurred). -/
inductive Expression where
  | binary (left : Expression) (op : Token) (right : Expression)
      (expr_type : Option Ty)
  | expressionList (list : List Expression)
  | grouping (expr : Expression) (expr_type : Option Ty)
  | literal (token : Token) (expr_type : Option Ty)
  | statement (expr : Expression)
  | unary (op : Token) (expr : Expression) (expr_type : Option Ty)
  | unit

mutual

/-- Modelled from the spec: Expression::get_type (parser.rs is not under
src/). Value-bearing variants return their cached type; a statement discards
its value so its type is Unit; an expression list takes the type of its final
member (a list of statements is Unit-typed) and the empty list is Unit; the
empty expression is Unit. -/
def Expression.get_type : Expression → Option Ty
  | .binary _ _ _ expr_type => expr_type
  | .expressionList list => lastType list
  | .grouping _ expr_type => expr_type
  | .literal _ expr_type => expr_type
  | .statement _ => some .unit
  | .unary _ _ expr_type => expr_type
  | .unit => some .unit

/-- Type of the final member of an expression list; Unit when empty. -/
def lastType : List Expression → Option Ty
  | [] => some .unit
  | [e] => e.get_type
  | _ :: rest => lastType rest

end

/-- Warning kinds, from log.rs lines 16-20. -/
inductive WarningType where
  | cliArgRoundedDownU16 (arg : String) (value : Nat)
  | cliTargetLargerThanMachine (ptr_size : Nat)
deriving DecidableEq, Repr

/-- Error kinds, from log.rs lines 24-58. -/
inductive ErrorType where
  | fatalError
  | cliMultipleFiles
  | cliCantReadArgs
  | cliNoArgs
  | cliRequiresArg (arg : String)
  | cliRequiresNumArg (arg : String)
  | cliRequiresNumArgLessThanU16 (arg : String) (bound : Nat)
  | cliRequiresNumArgAtLeastU16 (arg : String) (bound : Nat)
  | cliRequiresBoolArg (arg : String)
  | cliUnrecognizedArg (arg : String)
  | cliCantOpenFile (path : String)
  | cliNoFile
  | cliFileToBig (ptr_size : Nat)
  | unrecognizedToken (token : String)
  | unrepresentableIntegerLiteral (token : String)
  | invalidArgsForOperator (op : String) (types : List String)
  | expectedEOF
  | unexpectedEOF
  | unexpectedToken
  | expectedExpressionInParens
  | expectedCloseParen
  | unnegatedMinimumIntegerLiteral
  | excessiveBytecode
  | cantCompile
  | compiledForDifferentTarget (ptr_size : Nat)
  | divideByZero
deriving DecidableEq, Repr

/-- LogType from log.rs lines 8-12: a warning or an error. -/
inductive LogType where
  | warning (w : WarningType)
  | error (e : ErrorType)
deriving DecidableEq, Repr

/-- Log from log.rs lines 62-66: a diagnostic with an optional source
position. -/
structure Log where
  log_type : LogType
  line_and_col : Option (Nat × Nat)
deriving DecidableEq, Repr

/-- is_error from log.rs lines 170-180: whether a list of logs contains an
error (the Rust loop returns true at the first Error entry). -/
def is_error (logs : List Log) : Bool :=
  logs.any fun log =>
    match log.log_type with
    | .error _ => true
    | .warning _ => false

/-- OpCode from compiler.rs lines 11-56, in declaration order. The Rust enum
carries no explicit discriminant values. -/
inductive OpCode where
  | pushInt
  | pushByte
  | popInt
  | popByte
  | printInt
  | printBool
  | minusInt
  | addInt
  | subtractInt
  | multiplyInt
  | divideInt
  | moduloInt
  | lessInt
  | lessEqualInt
  | greaterInt
  | greaterEqualInt
  | notOp
  | complementInt
  | andInt
  | andByte
  | xorInt
  | xorByte
  | orInt
  | orByte
  | leftShiftInt
  | rightShiftInt
  | equalityInt
  | equalityByte
  | inequalityInt
  | inequalityByte
deriving DecidableEq, Repr, Fintype

/-- The byte value of an opcode, i.e. the value of the Rust cast
(OpCode::X as u8). Since compiler.rs assigns no explicit discriminants, Rust
numbers the variants by declaration order starting at 0; this table records
that numbering. -/
def OpCode.toByte : OpCode → Nat
  | .pushInt => 0
  | .pushByte => 1
  | .popInt => 2
  | .popByte => 3
  | .printInt => 4
  | .printBool => 5
  | .minusInt => 6
  | .addInt => 7
  | .subtractInt => 8
  | .multiplyInt => 9
  | .divideInt => 10
  | .moduloInt => 11
  | .lessInt => 12
  | .lessEqualInt => 13
  | .greaterInt => 14
  | .greaterEqualInt => 15
  | .notOp => 16
  | .complementInt => 17
  | .andInt => 18
  | .andByte => 19
  | .xorInt => 20
  | .xorByte => 21
  | .orInt => 22
  | .orByte => 23
  | .leftShiftInt => 24
  | .rightShiftInt => 25
  | .equalityInt => 26
  | .equalityByte => 27
  | .inequalityInt => 28
  | .inequalityByte => 29

/-- Transcription of a syntactic fact about compiler.rs lines 11-56: no
variant of the OpCode enum carries an explicit discriminant (there is no
"= n" on any variant in the source), so every variant's discriminant is
inferred by Rust from declaration order. -/
def OpCode.hasExplicitDiscriminant : OpCode → Bool := fun _ => false

/-- The w-byte little-endian rendering of a natural number: byte i is
v / 2^(8*i) % 256. -/
def littleEndianBytes (w : Nat) (v : Nat) : List Nat :=
  (List.range w).map fun i => v / 2 ^ (8 * i) % 256

/-- usize_to_ptr_size from compiler.rs lines 274-283: take the first
min(ptr_size, 8) bytes of the host's 8-byte little-endian rendering of the
value, then pad with zero bytes up to length ptr_size. -/
def usize_to_ptr_size (value : Nat) (ptr_size : Nat) : List Nat :=
  let usize_size_bytes : Nat := usizeBits / 8
  let bytes : List Nat := littleEndianBytes 8 value
  let bytes : List Nat := bytes.take (min ptr_size usize_size_bytes)
  bytes ++ List.replicate (ptr_size - bytes.length) 0

/-- handle_literal from compiler.rs lines 255-271, returning the bytes it
pushes; none models the panic on a non-literal token. An int literal is the
push-int opcode followed by the 4 little-endian bytes of its 32-bit value;
true and false are the push-byte opcode followed by 1 or 0. -/
def handle_literal (token : Token) : Option (List Nat) :=
  match token.token_type with
  | .intLiteral value => some (OpCode.pushInt.toByte :: littleEndianBytes 4 value)
  | .literalTrue => some [OpCode.pushByte.toByte, 1]
  | .literalFalse => some [OpCode.pushByte.toByte, 0]
  | _ => none

/-- The opcode bytes pushed for a binary operator, from the match in
handle_binary, compiler.rs lines 170-251: the opcode chosen by the operator
token (and the node type for bitwise operators, the left operand's type for
equality and inequality), with divide and modulo additionally embedding the
operator token's line and column through usize_to_ptr_size; none models the
panic arms. -/
def binary_op_bytes (ptr_size : Nat) (left : Expression) (op : Token)
    (expr_type : Ty) : Option (List Nat) :=
  match op.token_type with
  | .plus => some [OpCode.addInt.toByte]
  | .minus => some [OpCode.subtractInt.toByte]
  | .star => some [OpCode.multiplyInt.toByte]
  | .slash => some (OpCode.divideInt.toByte ::
      (usize_to_ptr_size op.line ptr_size ++ usize_to_ptr_size op.col ptr_size))
  | .percent => some (OpCode.moduloInt.toByte ::
      (usize_to_ptr_size op.line ptr_size ++ usize_to_ptr_size op.col ptr_size))
  | .less => some [OpCode.lessInt.toByte]
  | .lessEqual => some [OpCode.lessEqualInt.toByte]
  | .greater => some [OpCode.greaterInt.toByte]
  | .greaterEqual => some [OpCode.greaterEqualInt.toByte]
  | .ampersand =>
      match expr_type with
      | .int => some [OpCode.andInt.toByte]
      | .bool => some [OpCode.andByte.toByte]
      | .unit => none
  | .caret =>
      match expr_type with
      | .int => some [OpCode.xorInt.toByte]
      | .bool => some [OpCode.xorByte.toByte]
      | .unit => none
  | .bar =>
      match expr_type with
      | .int => some [OpCode.orInt.toByte]
      | .bool => some [OpCode.orByte.toByte]
      | .unit => none
  | .leftShift => some [OpCode.leftShiftInt.toByte]
  | .rightShift => some [OpCode.rightShiftInt.toByte]
  | .equality =>
      match left.get_type with
      | some .int => some [OpCode.equalityInt.toByte]
      | some .bool => some [OpCode.equalityByte.toByte]
      | _ => none
  | .inequality =>
      match left.get_type with
      | some .int => some [OpCode.inequalityInt.toByte]
      | some .bool => some [OpCode.inequalityByte.toByte]
      | _ => none
  | _ => none

mutual

/-- generate_bytecode from compiler.rs lines 103-157, returning the bytes
appended for an expression; none models the panics (a missing cached type or
an operator token that no arm handles). The Binary arm inlines the body of
handle_binary (compiler.rs lines 160-252) so that the recursion stays
structural; handle_binary itself is defined below and tied to this arm by
generate_bytecode_binary. -/
def generate_bytecode : Expression → Nat → Option (List Nat)
  | .binary left op right expr_type, ptr_size => do
      let t ← expr_type
      let left_code ← generate_bytecode left ptr_size
      let right_code ← generate_bytecode right ptr_size
      let op_bytes ← binary_op_bytes ptr_size left op t
      some (left_code ++ right_code ++ op_bytes)
  | .expressionList list, ptr_size => generate_list list ptr_size
  | .grouping child _, ptr_size => generate_bytecode child ptr_size
  | .literal token _, _ => handle_literal token
  | .statement child, ptr_size => do
      let code ← generate_bytecode child ptr_size
      if child.get_type ≠ some Ty.unit then
        match child.get_type with
        | some .int => some (code ++ [OpCode.popInt.toByte])
        | some .bool => some (code ++ [OpCode.popByte.toByte])
        | _ => none
      else
        some code
  | .unary op child _, ptr_size => do
      let code ← generate_bytecode child ptr_size
      match op.token_type with
      | .minus => some (code ++ [OpCode.minusInt.toByte])
      | .tilde => some (code ++ [OpCode.complementInt.toByte])
      | .exclamationMark => some (code ++ [OpCode.notOp.toByte])
      | _ => none
  | .unit, _ => some []
termination_by structural e => e

/-- The ExpressionList loop of generate_bytecode (compiler.rs lines
121-125): concatenate each member's code in order. -/
def generate_list : List Expression → Nat → Option (List Nat)
  | [], _ => some []
  | e :: rest, ptr_size => do
      let code ← generate_bytecode e ptr_size
      let codes ← generate_list rest ptr_size
      some (code ++ codes)
termination_by structural l => l

end

/-- handle_binary from compiler.rs lines 160-252: the left operand's code,
then the right operand's code, then the operator's opcode bytes. -/
def handle_binary (ptr_size : Nat) (left : Expression) (op : Token)
    (right : Expression) (expr_type : Ty) : Option (List Nat) := do
  let left_code ← generate_bytecode left ptr_size
  let right_code ← generate_bytecode right ptr_size
  let op_bytes ← binary_op_bytes ptr_size left op expr_type
  some (left_code ++ right_code ++ op_bytes)

/-- The Binary arm of generate_bytecode is exactly the expect on the cached
type followed by handle_binary, as in compiler.rs lines 106-120. -/
theorem generate_bytecode_binary (left : Expression) (op : Token)
    (right : Expression) (expr_type : Option Ty) (ptr_size : Nat) :
    generate_bytecode (.binary left op right expr_type) ptr_size =
      expr_type.bind fun t => handle_binary ptr_size left op right t := by
  cases expr_type <;> rfl

/-- ParserOutput from parser.rs (not under src/), modelled from the spec:
the source text, the root expression and the diagnostics accumulated so
far. -/
structure ParserOutput where
  file_text : String
  expr : Expression
  logs : List Log

/-- CompilerOutput from compiler.rs lines 59-63. -/
structure CompilerOutput where
  file_text : String
  bytecode : Option (List Nat)
  logs : List Log
deriving DecidableEq, Repr

/-- The terminal instruction appended after the root's code in compile
(compiler.rs lines 79-85): the print opcode for Int, its byte variant for
Bool, nothing for Unit. -/
def terminal_bytes : Ty → List Nat
  | .int => [OpCode.printInt.toByte]
  | .bool => [OpCode.printBool.toByte]
  | .unit => []

/-- The full buffer built by compile before the size check (compiler.rs
lines 73-85): the two cli_args header bytes, the root's generated code, and
the terminal instruction for the root's type; none models the panics. -/
def full_buffer (parser_output : ParserOutput) (cli_args : Nat × Nat) :
    Option (List Nat) := do
  let expr_type ← parser_output.expr.get_type
  let body ← generate_bytecode parser_output.expr cli_args.1
  some ([cli_args.1, cli_args.2] ++ body ++ terminal_bytes expr_type)

/-- compile from compiler.rs lines 68-101. If the incoming logs already hold
an error, generation is skipped and the logs are returned unchanged with no
bytecode. Otherwise the full buffer is built; when the target width in bits
is below the host's usize::BITS and the buffer length reaches
2^(8 * width-in-bytes), the buffer is dropped and one ExcessiveBytecode
error is appended, else the buffer is the bytecode. none models a panic
during generation. -/
def compile (parser_output : ParserOutput) (cli_args : Nat × Nat) :
    Option CompilerOutput :=
  if is_error parser_output.logs then
    some { file_text := parser_output.file_text
           bytecode := none
           logs := parser_output.logs }
  else
    match full_buffer parser_output cli_args with
    | none => none
    | some byte_list =>
        if cli_args.1 * 8 < usizeBits ∧ 2 ^ (cli_args.1 * 8) ≤ byte_list.length then
          some { file_text := parser_output.file_text
                 bytecode := none
                 logs := parser_output.logs ++
                   [{ log_type := .error .excessiveBytecode, line_and_col := none }] }
        else
          some { file_text := parser_output.file_text
                 bytecode := some byte_list
                 logs := parser_output.logs }

/-- format_vec_string from log.rs lines 195-219: none for the empty list,
the single element alone, two elements joined by " and ", and for longer
lists the first element, the middle elements each preceded by ", ", and the
last preceded by ", and ". -/
def format_vec_string (vec : List String) : Option String :=
  match vec with
  | [] => none
  | [a] => some a
  | [a, b] => some (a ++ " and " ++ b)
  | a :: rest =>
      some ((rest.dropLast.foldl (fun acc s => acc ++ ", " ++ s) a)
        ++ ", and " ++ rest.getLastD "")

/-- The message rendered by Display for Log on an InvalidArgsForOperator
error (log.rs lines 125-126): the missing-definition template with the
humanized type list, the empty string when format_vec_string returns
none. -/
def invalid_args_message (op : String) (types : List String) : String :=
  "the operator \"" ++ op ++ "\" has no definition over the types "
    ++ (format_vec_string types).getD ""

/-! Helper lemmas about the byte-level encodings. -/

/-- littleEndianBytes always yields exactly w bytes. -/
theorem littleEndianBytes_length (w v : Nat) : (littleEndianBytes w v).length = w := by
  simp [littleEndianBytes]

/-- usize_to_ptr_size always yields exactly ptr_size bytes. -/
theorem usize_to_ptr_size_length (v w : Nat) : (usize_to_ptr_size v w).length = w := by
  simp [usize_to_ptr_size, littleEndianBytes, usizeBits]

/-- usize_to_ptr_size is the w-byte little-endian rendering of the value
reduced modulo 2^(8 * min(w, host width in bytes)): truncated to the low
bytes when w is below the host width, zero-padded above it. -/
theorem usize_to_ptr_size_eq_littleEndian (v w : Nat) :
    usize_to_ptr_size v w =
      littleEndianBytes w (v % 2 ^ (8 * min w (usizeBits / 8))) := by
  have hred : usize_to_ptr_size v w =
      (List.range (min w 8)).map (fun i => v / 2 ^ (8 * i) % 256)
        ++ List.replicate (w - min w 8) 0 := by
    simp only [usize_to_ptr_size, littleEndianBytes, usizeBits]
    rw [← List.map_take, List.take_range]
    have h1 : min (min w (64 / 8)) 8 = min w 8 := by omega
    simp [h1]
  rw [hred]
  apply List.ext_getElem
  · simp [littleEndianBytes]
  · intro i h1 h2
    have hiw : i < w := by
      simpa [littleEndianBytes] using h2
    simp only [littleEndianBytes, List.getElem_map, List.getElem_range]
    by_cases hcase : i < min w 8
    · rw [List.getElem_append_left (by simpa using hcase)]
      rw [List.getElem_map, List.getElem_range]
      have hmin : min w (usizeBits / 8) = min w 8 := by simp [usizeBits]
      rw [hmin]
      have hsplit : 2 ^ (8 * min w 8) = 2 ^ (8 * i) * 2 ^ (8 * min w 8 - 8 * i) := by
        rw [← pow_add]
        congr 1
        omega
      rw [hsplit, Nat.mod_mul_right_div_self]
      have hdvd : (256 : Nat) ∣ 2 ^ (8 * min w 8 - 8 * i) := by
        have h8 : (256 : Nat) = 2 ^ 8 := by norm_num
        rw [h8]
        exact pow_dvd_pow 2 (by omega)
      rw [Nat.mod_mod_of_dvd _ hdvd]
    · rw [List.getElem_append_right (by simp; omega)]
      rw [List.getElem_replicate]
      have hmin : min w (usizeBits / 8) = 8 := by simp [usizeBits]; omega
      rw [hmin]
      have hlt : v % 2 ^ (8 * 8) < 2 ^ (8 * i) := by
        calc v % 2 ^ (8 * 8) < 2 ^ (8 * 8) := Nat.mod_lt _ (by positivity)
        _ ≤ 2 ^ (8 * i) := Nat.pow_le_pow_right (by norm_num) (by omega)
      rw [Nat.div_eq_of_lt hlt]

/-- When the value fits both the target width and the host word,
usize_to_ptr_size is exactly its w-byte little-endian encoding. -/
theorem usize_to_ptr_size_encodes (v w : Nat) (h1 : v < 2 ^ (8 * w))
    (h2 : v < 2 ^ usizeBits) :
    usize_to_ptr_size v w = littleEndianBytes w v := by
  rw [usize_to_ptr_size_eq_littleEndian]
  congr 1
  apply Nat.mod_eq_of_lt
  rcases le_or_lt w 8 with hw | hw
  · have hmin : min w (usizeBits / 8) = w := by simp [usizeBits]; omega
    rw [hmin]
    exact h1
  · have hmin : min w (usizeBits / 8) = 8 := by simp [usizeBits]; omega
    rw [hmin]
    calc v < 2 ^ usizeBits := h2
    _ = 2 ^ (8 * 8) := by norm_num [usizeBits]

/-- Specification-side rendering of a list joined by ", " between
consecutive items. -/
def commaSeparated : List String → String
  | [] => ""
  | [a] => a
  | a :: rest => a ++ ", " ++ commaSeparated rest

/-- The accumulator loop of format_vec_string builds exactly the comma
separated rendering of the seed followed by the folded items. -/
theorem foldl_commaSeparated (m : List String) (x : String) :
    m.foldl (fun acc s => acc ++ ", " ++ s) x = commaSeparated (x :: m) := by
  induction m generalizing x with
  | nil => rfl
  | cons y t ih =>
      rw [List.foldl_cons, ih]
      cases t with
      | nil => rfl
      | cons z t2 =>
          simp [commaSeparated, String.append_assoc]

/-- With three or more items, format_vec_string renders the items separated
by ", " with ", and " before the last one. -/
theorem join_three_or_more (types : List String) (h : 3 ≤ types.length) :
    (format_vec_string types).getD "" =
      commaSeparated types.dropLast ++ ", and " ++ types.getLastD "" := by
  match types, h with
  | a :: b :: c :: rest, _ =>
    simp only [format_vec_string, Option.getD_some]
    rw [foldl_commaSeparated]
    rw [List.dropLast_cons₂]
    simp [List.getLastD_cons]

/-! Concrete tokens, expressions and parser outputs used to exercise the
compiler. -/

/-- An int-literal token at line 1 column 1. -/
def intTok (v : Nat) : Token := { token_type := .intLiteral v, line := 1, col := 1 }

/-- An Int-typed integer-literal expression. -/
def intLit (v : Nat) : Expression := .literal (intTok v) (some .int)

/-- The Bool-typed literal true. -/
def trueLit : Expression :=
  .literal { token_type := .literalTrue, line := 1, col := 1 } (some .bool)

/-- The Bool-typed literal false. -/
def falseLit : Expression :=
  .literal { token_type := .literalFalse, line := 1, col := 9 } (some .bool)

/-- A plus token. -/
def plusTok : Token := { token_type := .plus, line := 1, col := 3 }

/-- A star token. -/
def starTok : Token := { token_type := .star, line := 1, col := 7 }

/-- A unary minus token. -/
def minusTok : Token := { token_type := .minus, line := 1, col := 1 }

/-- An equality token. -/
def eqTok : Token := { token_type := .equality, line := 1, col := 3 }

/-- A slash token at line 3 column 5. -/
def slashTok35 : Token := { token_type := .slash, line := 3, col := 5 }

/-- A slash token whose line number 300 does not fit one byte. -/
def slashTok300 : Token := { token_type := .slash, line := 300, col := 5 }

/-- The typed tree for the source 3 + 4 * 2. -/
def exprThreePlusFourTimesTwo : Expression :=
  .binary (intLit 3) plusTok
    (.binary (intLit 4) starTok (intLit 2) (some .int)) (some .int)

/-- The typed tree for 10 / 0 with the divide at line 300 column 5. -/
def divLine300 : Expression := .binary (intLit 10) slashTok300 (intLit 0) (some .int)

/-- A statement over an int literal: 6 bytecode bytes. -/
def intStatement : Expression := .statement (intLit 7)

/-- A statement over a negated int literal: 7 bytecode bytes. -/
def negStatement : Expression := .statement (.unary minusTok (intLit 7) (some .int))

/-- An error-free program whose full width-1 buffer is 255 bytes long. -/
def programOf255 : ParserOutput :=
  { file_text := ""
    expr := .expressionList (List.replicate 41 intStatement ++ [negStatement])
    logs := [] }

/-- An error-free program whose full width-1 buffer is 256 bytes long. -/
def programOf256 : ParserOutput :=
  { file_text := ""
    expr := .expressionList (List.replicate 40 intStatement ++ List.replicate 2 negStatement)
    logs := [] }

/-- The full width-1 buffer of programOf255. -/
def buffer255 : List Nat := (full_buffer programOf255 (1, 0)).getD []

/-- The full width-1 buffer of programOf256. -/
def buffer256 : List Nat := (full_buffer programOf256 (1, 0)).getD []

/-- A statement list whose final (and only) node is Unit-typed. -/
def unitProgram : ParserOutput :=
  { file_text := "", expr := .expressionList [intStatement], logs := [] }

/-- A parser output that already carries an error diagnostic. -/
def errorProgram : ParserOutput :=
  { file_text := "x"
    expr := .unit
    logs := [{ log_type := .error .unexpectedToken, line_and_col := none }] }

/-- The diagnostic appended when the bytecode exceeds the target's address
space. -/
def excessiveLog : Log :=
  { log_type := .error .excessiveBytecode, line_and_col := none }

/-! Claim theorems. -/

/-- C1: when the parser output's diagnostic list already contains an Error,
compile skips generation entirely, returning no bytecode and a diagnostic
list equal to the input list. -/
theorem compile_skips_generation_on_prior_error (po : ParserOutput)
    (args : Nat × Nat) (h : is_error po.logs = true) :
    compile po args = some ⟨po.file_text, none, po.logs⟩ := by
  simp [compile, h]

/-- Witness for C1 at a concrete parser output carrying an error. -/
theorem compile_skips_generation_on_prior_error_witness :
    compile errorProgram (4, 0) =
      some ⟨errorProgram.file_text, none, errorProgram.logs⟩ :=
  compile_skips_generation_on_prior_error errorProgram (4, 0) rfl

/-- C2: for an error-free input whose full buffer is built, if the target
width in bits is below the host width and the buffer length reaches
2^(8 * width in bytes), compile returns no bytecode and appends exactly one
ExcessiveBytecode error to the input diagnostics; otherwise the buffer is
returned and no error is added. -/
theorem compile_excessive_bytecode_size_bound (po : ParserOutput)
    (args : Nat × Nat) (buf : List Nat)
    (hne : is_error po.logs = false) (hbuf : full_buffer po args = some buf) :
    (args.1 * 8 < usizeBits ∧ 2 ^ (args.1 * 8) ≤ buf.length →
        compile po args = some ⟨po.file_text, none, po.logs ++ [excessiveLog]⟩)
    ∧ (¬(args.1 * 8 < usizeBits ∧ 2 ^ (args.1 * 8) ≤ buf.length) →
        compile po args = some ⟨po.file_text, some buf, po.logs⟩) := by
  constructor <;> intro hc
  · simp only [compile, hne, Bool.false_eq_true, if_false, hbuf]
    rw [if_pos hc]
    rfl
  · simp only [compile, hne, Bool.false_eq_true, if_false, hbuf]
    rw [if_neg hc]

set_option maxRecDepth 40000 in
/-- Witness for C2 at the width-1 boundary: a 256-byte buffer triggers the
error and nothing is emitted, while a 255-byte buffer is returned intact. -/
theorem compile_excessive_bytecode_size_bound_witness :
    compile programOf256 (1, 0) = some ⟨"", none, [excessiveLog]⟩
    ∧ compile programOf255 (1, 0) = some ⟨"", some buffer255, []⟩ :=
  ⟨(compile_excessive_bytecode_size_bound programOf256 (1, 0) buffer256 rfl rfl).1
      (by decide),
   (compile_excessive_bytecode_size_bound programOf255 (1, 0) buffer255 rfl rfl).2
      (by decide)⟩

/-- C3: after the root expression's code the compiler appends exactly one
terminal instruction selected by the root's static type, the print-int
opcode for Int and the print-bool opcode for Bool, and appends nothing at
all when the root's type is Unit. -/
theorem compile_terminal_instruction_by_root_type (po : ParserOutput)
    (args : Nat × Nat) (t : Ty) (body : List Nat)
    (ht : po.expr.get_type = some t)
    (hb : generate_bytecode po.expr args.1 = some body) :
    (t = .int → full_buffer po args =
        some ([args.1, args.2] ++ body ++ [OpCode.printInt.toByte]))
    ∧ (t = .bool → full_buffer po args =
        some ([args.1, args.2] ++ body ++ [OpCode.printBool.toByte]))
    ∧ (t = .unit → full_buffer po args = some ([args.1, args.2] ++ body)) := by
  refine ⟨?_, ?_, ?_⟩ <;> rintro rfl <;>
    simp [full_buffer, ht, hb, terminal_bytes]

/-- Witness for C3: an Int root gains the print-int terminal, a Bool root
the print-bool terminal, and a statement list whose final node is Unit-typed
gains no terminal instruction. -/
theorem compile_terminal_instruction_by_root_type_witness :
    full_buffer { file_text := "", expr := intLit 3, logs := [] } (4, 0) =
      some ([4, 0] ++ [OpCode.pushInt.toByte, 3, 0, 0, 0] ++ [OpCode.printInt.toByte])
    ∧ full_buffer { file_text := "", expr := trueLit, logs := [] } (4, 0) =
      some ([4, 0] ++ [OpCode.pushByte.toByte, 1] ++ [OpCode.printBool.toByte])
    ∧ full_buffer unitProgram (1, 0) =
      some ([1, 0] ++ [OpCode.pushInt.toByte, 7, 0, 0, 0, OpCode.popInt.toByte]) :=
  ⟨(compile_terminal_instruction_by_root_type
      { file_text := "", expr := intLit 3, logs := [] } (4, 0) .int
      [OpCode.pushInt.toByte, 3, 0, 0, 0] rfl rfl).1 rfl,
   (compile_terminal_instruction_by_root_type
      { file_text := "", expr := trueLit, logs := [] } (4, 0) .bool
      [OpCode.pushByte.toByte, 1] rfl rfl).2.1 rfl,
   (compile_terminal_instruction_by_root_type unitProgram (1, 0) .unit
      [OpCode.pushInt.toByte, 7, 0, 0, 0, OpCode.popInt.toByte] rfl rfl).2.2 rfl⟩

/-- C4: a binary node emits the left operand's code, then the right
operand's code, then the operator's opcode bytes, in strict left-to-right
post-order; in particular the tree for 3 + 4 * 2 at width 4 compiles to
push-int 3, push-int 4, push-int 2, multiply, add, then the Int terminal. -/
theorem binary_postorder_emission :
    (∀ (ptr : Nat) (l : Expression) (op : Token) (r : Expression) (t : Ty)
        (bl br ob : List Nat),
        generate_bytecode l ptr = some bl →
        generate_bytecode r ptr = some br →
        binary_op_bytes ptr l op t = some ob →
        generate_bytecode (.binary l op r (some t)) ptr = some (bl ++ br ++ ob))
    ∧ compile { file_text := "3 + 4 * 2", expr := exprThreePlusFourTimesTwo, logs := [] }
        (4, 0) =
      some ⟨"3 + 4 * 2",
        some ([4, 0] ++
          ((OpCode.pushInt.toByte :: [3, 0, 0, 0]) ++
           ((OpCode.pushInt.toByte :: [4, 0, 0, 0]) ++
            (OpCode.pushInt.toByte :: [2, 0, 0, 0]) ++
            [OpCode.multiplyInt.toByte]) ++
           [OpCode.addInt.toByte]) ++
          [OpCode.printInt.toByte]),
        []⟩ := by
  constructor
  · intro ptr l op r t bl br ob hl hr hb
    simp [generate_bytecode, hl, hr, hb]
  · decide

/-- Witness for C4 at a concrete addition node. -/
theorem binary_postorder_emission_witness :
    generate_bytecode (.binary (intLit 1) plusTok (intLit 2) (some .int)) 4 =
      some ([OpCode.pushInt.toByte, 1, 0, 0, 0] ++ [OpCode.pushInt.toByte, 2, 0, 0, 0] ++
        [OpCode.addInt.toByte]) :=
  binary_postorder_emission.1 4 (intLit 1) plusTok (intLit 2) .int _ _ _ rfl rfl rfl

/-- C5: a divide or modulo node emits its opcode immediately followed by
exactly 2 * width bytes, the operator token's line and then its column, each
encoded as exactly width little-endian bytes. -/
theorem divmod_embeds_line_and_col (ptr : Nat) (l : Expression) (op : Token)
    (r : Expression) (t : Ty) (bl br : List Nat)
    (hl : generate_bytecode l ptr = some bl)
    (hr : generate_bytecode r ptr = some br) :
    (op.token_type = .slash →
        generate_bytecode (.binary l op r (some t)) ptr =
          some (bl ++ br ++ OpCode.divideInt.toByte ::
            (usize_to_ptr_size op.line ptr ++ usize_to_ptr_size op.col ptr)))
    ∧ (op.token_type = .percent →
        generate_bytecode (.binary l op r (some t)) ptr =
          some (bl ++ br ++ OpCode.moduloInt.toByte ::
            (usize_to_ptr_size op.line ptr ++ usize_to_ptr_size op.col ptr)))
    ∧ (usize_to_ptr_size op.line ptr).length = ptr
    ∧ (usize_to_ptr_size op.col ptr).length = ptr
    ∧ (op.line < 2 ^ (8 * ptr) → op.line < 2 ^ usizeBits →
        usize_to_ptr_size op.line ptr = littleEndianBytes ptr op.line)
    ∧ (op.col < 2 ^ (8 * ptr) → op.col < 2 ^ usizeBits →
        usize_to_ptr_size op.col ptr = littleEndianBytes ptr op.col) := by
  refine ⟨?_, ?_, usize_to_ptr_size_length _ _, usize_to_ptr_size_length _ _,
    usize_to_ptr_size_encodes _ _, usize_to_ptr_size_encodes _ _⟩ <;>
    intro hop <;> simp [generate_bytecode, hl, hr, binary_op_bytes, hop]

/-- Witness for C5 at a concrete division at line 3 column 5 with target
width 2. -/
theorem divmod_embeds_line_and_col_witness :
    generate_bytecode (.binary (intLit 10) slashTok35 (intLit 2) (some .int)) 2 =
      some ([OpCode.pushInt.toByte, 10, 0, 0, 0] ++ [OpCode.pushInt.toByte, 2, 0, 0, 0] ++
        OpCode.divideInt.toByte :: ([3, 0] ++ [5, 0])) :=
  (divmod_embeds_line_and_col 2 (intLit 10) slashTok35 (intLit 2) .int _ _ rfl rfl).1 rfl

/-- C6: equality and inequality nodes select their opcode from the left
operand's static type alone, with dedicated per-type opcodes: the int and
byte equality opcodes differ, the int and byte inequality opcodes differ,
the emitted inequality byte sequence is a single dedicated opcode and not
the equality opcode followed by boolean negation, and the trees for 1 == 2
and true == false select different opcodes. -/
theorem equality_opcode_by_left_operand_type :
    (∀ (ptr : Nat) (l : Expression) (op : Token) (r : Expression) (t : Ty)
        (bl br : List Nat),
        generate_bytecode l ptr = some bl →
        generate_bytecode r ptr = some br →
        ((op.token_type = .equality → l.get_type = some .int →
            generate_bytecode (.binary l op r (some t)) ptr =
              some (bl ++ br ++ [OpCode.equalityInt.toByte]))
        ∧ (op.token_type = .equality → l.get_type = some .bool →
            generate_bytecode (.binary l op r (some t)) ptr =
              some (bl ++ br ++ [OpCode.equalityByte.toByte]))
        ∧ (op.token_type = .inequality → l.get_type = some .int →
            generate_bytecode (.binary l op r (some t)) ptr =
              some (bl ++ br ++ [OpCode.inequalityInt.toByte]))
        ∧ (op.token_type = .inequality → l.get_type = some .bool →
            generate_bytecode (.binary l op r (some t)) ptr =
              some (bl ++ br ++ [OpCode.inequalityByte.toByte]))))
    ∧ OpCode.equalityInt.toByte ≠ OpCode.equalityByte.toByte
    ∧ OpCode.inequalityInt.toByte ≠ OpCode.inequalityByte.toByte
    ∧ [OpCode.inequalityInt.toByte] ≠ [OpCode.equalityInt.toByte, OpCode.notOp.toByte]
    ∧ [OpCode.inequalityByte.toByte] ≠ [OpCode.equalityByte.toByte, OpCode.notOp.toByte]
    ∧ binary_op_bytes 4 (intLit 1) eqTok .bool = some [OpCode.equalityInt.toByte]
    ∧ binary_op_bytes 4 trueLit eqTok .bool = some [OpCode.equalityByte.toByte] := by
  refine ⟨?_, by decide, by decide, by decide, by decide, by decide, by decide⟩
  intro ptr l op r t bl br hl hr
  refine ⟨?_, ?_, ?_, ?_⟩ <;> intro hop hty <;>
    simp [generate_bytecode, hl, hr, binary_op_bytes, hop, hty]

/-- Witness for C6 at the concrete comparison 1 == 2. -/
theorem equality_opcode_by_left_operand_type_witness :
    generate_bytecode (.binary (intLit 1) eqTok (intLit 2) (some .bool)) 4 =
      some ([OpCode.pushInt.toByte, 1, 0, 0, 0] ++ [OpCode.pushInt.toByte, 2, 0, 0, 0] ++
        [OpCode.equalityInt.toByte]) :=
  (equality_opcode_by_left_operand_type.1 4 (intLit 1) eqTok (intLit 2) .bool _ _
    rfl rfl).1 rfl rfl

/-- C7: an integer literal emits the push-int opcode followed by the
value's 4 little-endian bytes, a width fixed by the language and independent
of the target word width; a boolean literal emits the push-byte opcode
followed by the single byte 1 for true or 0 for false. -/
theorem literal_emission_fixed_width (tok : Token) (et : Option Ty) (ptr : Nat) :
    (∀ v, tok.token_type = .intLiteral v →
        generate_bytecode (.literal tok et) ptr =
          some (OpCode.pushInt.toByte :: littleEndianBytes 4 v))
    ∧ (tok.token_type = .literalTrue →
        generate_bytecode (.literal tok et) ptr = some [OpCode.pushByte.toByte, 1])
    ∧ (tok.token_type = .literalFalse →
        generate_bytecode (.literal tok et) ptr = some [OpCode.pushByte.toByte, 0])
    ∧ (∀ q : Nat, generate_bytecode (.literal tok et) ptr =
        generate_bytecode (.literal tok et) q)
    ∧ (∀ v : Nat, (littleEndianBytes 4 v).length = 4) := by
  refine ⟨?_, ?_, ?_, fun q => rfl, fun v => littleEndianBytes_length 4 v⟩
  · intro v hv
    simp [generate_bytecode, handle_literal, hv]
  · intro hv
    simp [generate_bytecode, handle_literal, hv]
  · intro hv
    simp [generate_bytecode, handle_literal, hv]

/-- Witness for C7 at a concrete int literal and the literal true. -/
theorem literal_emission_fixed_width_witness :
    generate_bytecode (intLit 3) 1 = some (OpCode.pushInt.toByte :: littleEndianBytes 4 3)
    ∧ generate_bytecode trueLit 1 = some [OpCode.pushByte.toByte, 1] :=
  ⟨(literal_emission_fixed_width (intTok 3) (some .int) 1).1 3 rfl,
   (literal_emission_fixed_width { token_type := .literalTrue, line := 1, col := 1 }
      (some .bool) 1).2.1 rfl⟩

/-- C8: the operand-type list inside an InvalidArgsForOperator message
renders with a humanized join: the empty list renders as the empty string, a
single item as itself, two items as the pair joined by " and ", and three or
more items separated by ", " with ", and " before the last. -/
theorem humanized_type_list_join :
    (∀ (op : String) (types : List String),
        invalid_args_message op types =
          "the operator \"" ++ op ++ "\" has no definition over the types "
            ++ (format_vec_string types).getD "")
    ∧ (format_vec_string []).getD "" = ""
    ∧ (∀ a : String, (format_vec_string [a]).getD "" = a)
    ∧ (∀ a b : String, (format_vec_string [a, b]).getD "" = a ++ " and " ++ b)
    ∧ (∀ types : List String, 3 ≤ types.length →
        (format_vec_string types).getD "" =
          commaSeparated types.dropLast ++ ", and " ++ types.getLastD "") :=
  ⟨fun _ _ => rfl, rfl, fun _ => rfl, fun _ _ => rfl, join_three_or_more⟩

/-- Witness for C8 at a concrete four-element list. -/
theorem humanized_type_list_join_witness :
    (format_vec_string ["int", "bool", "unit", "char"]).getD "" =
      "int, bool, unit, and char" :=
  humanized_type_list_join.2.2.2.2 ["int", "bool", "unit", "char"] (by decide)

/-- C9 counterexample: the OpCode discriminants are not assigned explicitly;
no variant of the enum in compiler.rs carries an explicit discriminant
value, already at the first variant, so the byte values are inferred from
declaration order. -/
theorem opcode_discriminants_not_explicitly_assigned :
    OpCode.hasExplicitDiscriminant OpCode.pushInt = false := rfl

/-- C9 amended: the OpCode discriminants are unique single-byte values, no
two opcodes sharing a byte value and each fitting in one byte, but they are
inferred from declaration order rather than assigned explicitly. -/
theorem opcode_discriminants_unique_single_byte :
    (∀ a b : OpCode, a ≠ b → a.toByte ≠ b.toByte)
    ∧ (∀ a : OpCode, a.toByte < 256) := by
  constructor
  · decide
  · decide

/-- Witness for C9 at two concrete distinct opcodes. -/
theorem opcode_discriminants_unique_single_byte_witness :
    OpCode.equalityInt.toByte ≠ OpCode.inequalityInt.toByte :=
  opcode_discriminants_unique_single_byte.1 OpCode.equalityInt OpCode.inequalityInt
    (by decide)

/-- C10: usize_to_ptr_size returns exactly w bytes, the little-endian bytes
of the value reduced modulo 2^(8 * min(w, host width in bytes)) and
zero-padded beyond the host width; consequently a divide whose operator sits
at line 300 compiled at width 1 silently embeds the truncated byte 300 % 256
with no diagnostic raised. -/
theorem usize_to_ptr_size_truncating_encoding :
    (∀ (v w : Nat), (usize_to_ptr_size v w).length = w)
    ∧ (∀ (v w : Nat), usize_to_ptr_size v w =
        littleEndianBytes w (v % 2 ^ (8 * min w (usizeBits / 8))))
    ∧ compile { file_text := "10 / 0", expr := divLine300, logs := [] } (1, 0) =
        some ⟨"10 / 0",
          some ([1, 0] ++
            [OpCode.pushInt.toByte, 10, 0, 0, 0] ++
            [OpCode.pushInt.toByte, 0, 0, 0, 0] ++
            [OpCode.divideInt.toByte, 300 % 256, 5] ++
            [OpCode.printInt.toByte]),
          []⟩ :=
  ⟨usize_to_ptr_size_length, usize_to_ptr_size_eq_littleEndian, by decide⟩

end Krust
